import Mathlib

/-!
Verification of the session-scoped streaming orchestrator of the
langchain-spike repository (server/src).  The data model and operations are
shallowly embedded from the TypeScript source: the in-memory session map of
store.ts becomes an association list inside an explicit `Store` value that is
threaded through every operation, `uuid()` and the wall clock become counters
carried by the same `Store`, and the event publishes of addNode.ts become an
explicit step trace.
-/

set_option autoImplicit false

namespace Spike

/-- Role of a chat message, from types.ts (`"USER" | "MODEL"`). -/
inductive Role
  | USER
  | MODEL
deriving DecidableEq, Repr

/-- Chat message, from types.ts.  `id` models the `uuid()` string by a natural
number drawn from a fresh-id counter; `createdAt` models the `Date` by a
natural-number clock. -/
structure Message where
  id : Nat
  sessionId : String
  role : Role
  content : String
  createdAt : Nat
deriving DecidableEq, Repr

/-- Per-session document, from types.ts (`bodyHtml` is the innerHTML of
`<body>`). -/
structure HtmlDocument where
  sessionId : String
  bodyHtml : String
deriving DecidableEq, Repr

/-- Per-session state held by the store, from store.ts (`SessionState`). -/
structure SessionState where
  document : HtmlDocument
  messages : List Message
deriving DecidableEq, Repr

/-- The whole mutable world of store.ts: the `sessions` map (an insertion
ordered association list models the JS `Map`), a fresh-id supply modelling
`uuid()`, and a clock modelling `new Date()`. -/
structure Store where
  sessions : List (String × SessionState)
  nextId : Nat
  now : Nat
deriving DecidableEq, Repr

/-- The store at process start: an empty session map. -/
def initialStore : Store := ⟨[], 0, 0⟩

/-- Lookup in the session map, modelling `sessions.get(id)`. -/
def findSession (id : String) : List (String × SessionState) → Option SessionState
  | [] => none
  | (k, v) :: rest => if k = id then some v else findSession id rest

/-- Insert-or-update in the session map, modelling `sessions.set(id, st)`:
an existing key keeps its position, a new key is appended. -/
def updateSession (id : String) (st : SessionState) :
    List (String × SessionState) → List (String × SessionState)
  | [] => [(id, st)]
  | (k, v) :: rest =>
      if k = id then (k, st) :: rest else (k, v) :: updateSession id st rest

/-- The session state a fresh session starts with, from ensureSession in
store.ts: empty document body and empty message log. -/
def freshState (id : String) : SessionState := ⟨⟨id, ""⟩, []⟩

/-- ensureSession from store.ts: use the given id (or generate one from the
fresh-id supply), create the session if absent, return the id. -/
def ensureSession (sessionId : Option String) (store : Store) : String × Store :=
  match sessionId with
  | some id =>
      if (findSession id store.sessions).isSome then (id, store)
      else (id, { store with sessions := updateSession id (freshState id) store.sessions })
  | none =>
      let id := Nat.repr store.nextId
      let store := { store with nextId := store.nextId + 1 }
      if (findSession id store.sessions).isSome then (id, store)
      else (id, { store with sessions := updateSession id (freshState id) store.sessions })

/-- getOrCreateSessionState from store.ts (ensureSession followed by a
non-null `sessions.get`). -/
def getOrCreateSessionState (id : String) (store : Store) : SessionState × Store :=
  match findSession id store.sessions with
  | some st => (st, store)
  | none =>
      (freshState id, { store with sessions := updateSession id (freshState id) store.sessions })

/-- appendMessage from store.ts.  The caller may supply `id`/`createdAt`
(the TS `msg.id ?? uuid()` and `msg.createdAt ?? new Date()`); when absent a
fresh id is drawn from the counter and the current clock value is used.
Every call advances the clock. -/
def appendMessage (sessionId : String) (role : Role) (content : String)
    (idOpt : Option Nat) (createdAtOpt : Option Nat) (store : Store) : Message × Store :=
  let (state, store) := getOrCreateSessionState sessionId store
  let message : Message :=
    ⟨idOpt.getD store.nextId, sessionId, role, content, createdAtOpt.getD store.now⟩
  let store := if idOpt.isSome then store else { store with nextId := store.nextId + 1 }
  let store :=
    { store with
        now := store.now + 1,
        sessions :=
          updateSession sessionId { state with messages := state.messages ++ [message] }
            store.sessions }
  (message, store)

/-- listMessages from store.ts: reads the message log through
getOrCreateSessionState, so an unknown id implicitly creates the session. -/
def listMessages (sessionId : String) (store : Store) : List Message × Store :=
  let (state, store) := getOrCreateSessionState sessionId store
  (state.messages, store)

/-- getDocument from store.ts. -/
def getDocument (sessionId : String) (store : Store) : HtmlDocument × Store :=
  let (state, store) := getOrCreateSessionState sessionId store
  (state.document, store)

/-- One left-to-right pass modelling the JS global regex scan
`prev.match(/<[^>]+>/g)`.  The state is `none` while outside a candidate
match and `some k` after an unconsumed `<`, where `k` counts the characters
matched so far by `[^>]+`.  A `>` closes a match exactly when at least one
inner character was seen (`[^>]+` needs one or more); `<>` fails and the
scan resumes, which coincides with continuing past the `>` since `>` cannot
start a match.  Inner characters may themselves be `<`, as in the regex. -/
def tagScanAux : Option Nat → List Char → Nat
  | _, [] => 0
  | none, c :: cs => if c = '<' then tagScanAux (some 0) cs else tagScanAux none cs
  | some k, c :: cs =>
      if c = '>' then
        if k > 0 then 1 + tagScanAux none cs else tagScanAux none cs
      else tagScanAux (some (k + 1)) cs

/-- Number of matches of the regex `<[^>]+>` in a string, i.e. the TS
expression `(prev.match(/<[^>]+>/g)?.length ?? 0)` from appendToBody. -/
def tagCount (s : String) : Nat := tagScanAux none s.toList

/-- appendToBody from store.ts: concatenates the fragment onto the body and
returns the number of regex matches of `<[^>]+>` in the body as it was
before this append. -/
def appendToBody (sessionId : String) (html : String) (store : Store) : Nat × Store :=
  let (state, store) := getOrCreateSessionState sessionId store
  let prev := state.document.bodyHtml
  let newState : SessionState :=
    { state with document := { state.document with bodyHtml := prev ++ html } }
  let store := { store with sessions := updateSession sessionId newState store.sessions }
  (tagCount prev, store)

/-- Read-only view of a session's message log used in theorem statements
(empty for an absent session). -/
def messagesOf (id : String) (store : Store) : List Message :=
  ((findSession id store.sessions).map SessionState.messages).getD []

/-- Read-only view of a session's document body used in theorem statements
(empty for an absent session, matching the body a lazily created session
starts with). -/
def bodyOf (id : String) (store : Store) : String :=
  ((findSession id store.sessions).map (fun st => st.document.bodyHtml)).getD ""

/-- Iterated appendMessage with no caller-supplied ids or timestamps, the
shape of every call in the repository. -/
def appendMessages (sessionId : String) (msgs : List (Role × String)) (store : Store) : Store :=
  msgs.foldl (fun st rc => (appendMessage sessionId rc.1 rc.2 none none st).2) store

/-- The messages produced by appendMessages when the fresh-id counter starts
at `n` and the clock at `t`. -/
def mkMessages (s : String) : List (Role × String) → Nat → Nat → List Message
  | [], _, _ => []
  | (r, c) :: rest, n, t => ⟨n, s, r, c, t⟩ :: mkMessages s rest (n + 1) (t + 1)

/-- Topic key for streamed model tokens, from pubsub.ts. -/
def messageDeltaTopic (sessionId : String) : String := "MESSAGE_DELTA_" ++ sessionId

/-- Topic key for tool lifecycle events, from pubsub.ts. -/
def toolEventTopic (sessionId : String) : String := "TOOL_EVENT_" ++ sessionId

/-- Topic key for document-delta events, from pubsub.ts. -/
def documentUpdatedTopic (sessionId : String) : String := "DOCUMENT_UPDATED_" ++ sessionId

/-- Topic key for the turn-completion marker, from pubsub.ts. -/
def modelMessageCompletedTopic (sessionId : String) : String :=
  "MODEL_MSG_COMPLETED_" ++ sessionId

/-- Lifecycle phase of a tool-call event, from types.ts. -/
inductive ToolEventType
  | STARTED
  | PROGRESS
  | COMPLETED
  | ERROR
deriving DecidableEq, Repr

/-- Arguments of the add_node tool, from AddNodeArgsSchema in addNode.ts:
a tag name, optional text content and an optional attribute record
(modelled as an insertion-ordered association list, the order
`Object.entries` iterates in). -/
structure AddNodeArgs where
  tag : String
  text : Option String
  attributes : Option (List (String × String))
deriving DecidableEq, Repr

/-- The `args` payload a tool-call event carries: the raw tool arguments on
STARTED, a truncated html preview on PROGRESS, the node index on COMPLETED
(the three object shapes used in addNode.ts). -/
inductive ToolEventArgs
  | raw (args : AddNodeArgs)
  | htmlPreview (preview : String)
  | indexResult (index : Nat)
deriving DecidableEq, Repr

/-- Tool lifecycle event, from types.ts; the timestamp models `new Date()`
readings of the ambient clock. -/
structure ToolCallEvent where
  id : Nat
  sessionId : String
  name : String
  args : ToolEventArgs
  type : ToolEventType
  timestamp : Nat
deriving DecidableEq, Repr

/-- Document-delta event payload, from types.ts. -/
structure DocumentNodeAdded where
  id : Nat
  sessionId : String
  html : String
  index : Nat
deriving DecidableEq, Repr

/-- Value returned by the add_node tool to its caller. -/
structure AddNodeResult where
  id : Nat
  html : String
  index : Nat
deriving DecidableEq, Repr

/-- One observable step of an add_node invocation, in program order: an
event publish on a topic, or the appendToBody mutation point.  The explicit
trace makes the ordering of publishes relative to the store mutation a
provable statement. -/
inductive AddNodeStep
  | publishTool (topic : String) (event : ToolCallEvent)
  | publishDoc (topic : String) (event : DocumentNodeAdded)
  | mutateStore (sessionId : String) (html : String)
deriving DecidableEq, Repr

/-- Character-level model of the replaceAll call in addNode.ts: each
double-quote character becomes the six characters of the entity, every
other character is kept. -/
def escapeChars : List Char → List Char
  | [] => []
  | c :: cs =>
      if c = '"' then '&' :: 'q' :: 'u' :: 'o' :: 't' :: ';' :: escapeChars cs
      else c :: escapeChars cs

/-- Attribute-value escaping used by addNode.ts. -/
def escapeAttr (v : String) : String := String.mk (escapeChars v.toList)

/-- The html fragment rendered by addNode.ts (lines 26 to 33): attribute
pairs joined with single spaces, open tag with a space before the attribute
string exactly when it is non-empty, text content verbatim, closing tag. -/
def renderHtml (args : AddNodeArgs) : String :=
  let attrString :=
    match args.attributes with
    | some attrs =>
        String.intercalate " "
          (attrs.map (fun kv => kv.1 ++ "=\"" ++ escapeAttr kv.2 ++ "\""))
    | none => ""
  let openTag :=
    if attrString.length > 0 then "<" ++ args.tag ++ " " ++ attrString ++ ">"
    else "<" ++ args.tag ++ ">"
  let text := args.text.getD ""
  openTag ++ text ++ "</" ++ args.tag ++ ">"

/-- addNodeTool from addNode.ts, as a state transformer returning its result,
the updated store, and the trace of its observable steps in program order:
publish STARTED, publish PROGRESS with the first 80 characters of the
rendered fragment, apply appendToBody, publish the document-delta, publish
COMPLETED.  The shared event id models the single `uuid()` call at the top of
the function. -/
def addNodeTool (sessionId : String) (args : AddNodeArgs) (store : Store) :
    AddNodeResult × Store × List AddNodeStep :=
  let id := store.nextId
  let store := { store with nextId := store.nextId + 1 }
  let t := store.now
  let started : ToolCallEvent := ⟨id, sessionId, "add_node", .raw args, .STARTED, t⟩
  let html := renderHtml args
  let progress : ToolCallEvent :=
    ⟨id, sessionId, "add_node", .htmlPreview (html.take 80), .PROGRESS, t + 1⟩
  let appended := appendToBody sessionId html store
  let index := appended.1
  let docEvent : DocumentNodeAdded := ⟨id, sessionId, html, index⟩
  let completed : ToolCallEvent :=
    ⟨id, sessionId, "add_node", .indexResult index, .COMPLETED, t + 2⟩
  let store := { appended.2 with now := appended.2.now + 3 }
  (⟨id, html, index⟩, store,
   [AddNodeStep.publishTool (toolEventTopic sessionId) started,
    AddNodeStep.publishTool (toolEventTopic sessionId) progress,
    AddNodeStep.mutateStore sessionId html,
    AddNodeStep.publishDoc (documentUpdatedTopic sessionId) docEvent,
    AddNodeStep.publishTool (toolEventTopic sessionId) completed])

/-- An agent instance produced by the factory in agents/index.ts: the
langchain strategy keeps a maxIterations bound, the langgraph strategy's
constructor takes none. -/
inductive AgentInstance
  | langchainAgent (systemPrompt : String) (modelName : String)
      (temperature : Nat) (maxIterations : Nat)
  | langgraphAgent (systemPrompt : String) (modelName : String) (temperature : Nat)
deriving DecidableEq, Repr

/-- The maxIterations bound an agent instance was constructed with, when it
has one. -/
def AgentInstance.capOf : AgentInstance → Option Nat
  | .langchainAgent _ _ _ m => some m
  | .langgraphAgent _ _ _ => none

/-- createAgent from agents/index.ts.  `envModel` models the environment
variable OPENAI_MODEL consulted by the default for modelName; the defaults
for temperature and maxIterations are 0 and 25 as in the source.  The switch
over the framework name throws on anything other than the two known
strategies, modelled by the error constructor. -/
def createAgent (framework : String) (systemPrompt : String)
    (envModel : Option String) (modelName : Option String)
    (temperature : Option Nat) (maxIterations : Option Nat) : Except String AgentInstance :=
  let modelName := modelName.getD (envModel.getD "gpt-4o-mini")
  let temperature := temperature.getD 0
  let maxIterations := maxIterations.getD 25
  if framework = "langchain" then
    .ok (.langchainAgent systemPrompt modelName temperature maxIterations)
  else if framework = "langgraph" then
    .ok (.langgraphAgent systemPrompt modelName temperature)
  else
    .error ("Unknown agent framework: " ++ framework)

/-- How one agent run ends: a final natural-language answer, or a turn
failure (a rejected promise). -/
inductive AgentError
  | iterationCapExceeded (cap : Nat)
  | fault (message : String)
deriving DecidableEq, Repr

/-- Modelled from the spec: the possible outcomes of the reasoning-engine
execution (executeStreaming of the langchain/langgraph wrappers).  The loop
bodies live in the langchain libraries, outside this repository's src, so
only their outcome is modelled: success with the final text, or failure,
with the iteration-cap overrun surfacing as a reported error as the spec
states. -/
inductive AgentOutcome
  | success (content : String)
  | failure (error : AgentError)
deriving DecidableEq, Repr

/-- One observable step of a whole turn, from agent.ts and schema.ts. -/
inductive TurnStep
  | invokeAgent
  | toolStep (s : AddNodeStep)
  | publishToken (sessionId : String) (contentDelta : String)
  | publishCompletion (sessionId : String)
  | logError (message : String)
deriving DecidableEq, Repr

/-- Modelled from the spec: an abstract agent run (the body of
agent.executeStreaming, driven by the external reasoning engine).  Given the
store it runs against, it produces the store after its tool calls, the trace
of steps it emitted (tool publishes and token publishes), and its outcome. -/
def AgentRun : Type := Store → Store × List TurnStep × AgentOutcome

/-- An agent run only mutates documents (through the add_node tool), never a
session's message log — true of executeStreaming, whose only store access is
addNodeTool, which touches only the document body. -/
def RunPreservesMessages (run : AgentRun) : Prop :=
  ∀ store sid, messagesOf sid (run store).1 = messagesOf sid store

/-- The steps an agent run emits are tool steps and token publishes only —
true of executeStreaming, whose observable effects are the add_node tool's
publishes and the onToken callback; in particular a run never publishes the
turn-completion marker and never logs through the orchestrator. -/
def RunEmitsOnlyToolAndTokenSteps (run : AgentRun) : Prop :=
  ∀ store x, x ∈ (run store).2.1 →
    (∃ st, x = TurnStep.toolStep st) ∨ ∃ sid tok, x = TurnStep.publishToken sid tok

/-- runAgentStreaming, wrapper variant of agent.ts: invoke the configured
agent; on success append the MODEL message and publish the
modelMessageCompleted marker; on failure log the error and rethrow (the
Except.error result).  The steps of the abstract run are bracketed by the
invocation marker and the success or failure tail. -/
def runAgentStreaming (sessionId userInput : String) (run : AgentRun) (store : Store) :
    Except AgentError String × Store × List TurnStep :=
  match run store with
  | (store1, steps, .success content) =>
      (.ok content, (appendMessage sessionId .MODEL content none none store1).2,
        TurnStep.invokeAgent :: steps ++ [TurnStep.publishCompletion sessionId])
  | (store1, steps, .failure err) =>
      (.error err, store1,
        TurnStep.invokeAgent :: steps ++ [TurnStep.logError "Agent execution error"])

/-- The sendMessage mutation from schema.ts: record the USER message, then
fire runAgentStreaming whose rejection is only caught and logged (never
retried); the recorded message is returned.  The fire-and-forget execution
is flattened into the sequential effect of the single turn it starts. -/
def sendMessage (sessionId input : String) (run : AgentRun) (store : Store) :
    Message × Store × List TurnStep :=
  match runAgentStreaming sessionId input run
      (appendMessage sessionId .USER input none none store).2 with
  | (.ok _, store2, steps) =>
      ((appendMessage sessionId .USER input none none store).1, store2, steps)
  | (.error _, store2, steps) =>
      ((appendMessage sessionId .USER input none none store).1, store2,
        steps ++ [TurnStep.logError "Agent error"])

/-- A history entry passed to the langchain machinery (HumanMessage or
AIMessage). -/
inductive ChatMessage
  | human (content : String)
  | ai (content : String)
deriving DecidableEq, Repr

/-- The role-directed conversion of a stored message into a langchain
message, used identically by all runAgentStreaming variants. -/
def toChatMessage (m : Message) : ChatMessage :=
  match m.role with
  | .USER => .human m.content
  | .MODEL => .ai m.content

/-- History construction of the langgraph variant of runAgentStreaming
(agent.ts, first variant): all stored messages except the last
(`allMessages.slice(0, -1)`), converted per role. -/
def historyLanggraphVariant (sessionId : String) (store : Store) :
    List ChatMessage × Store :=
  let (allMessages, store) := listMessages sessionId store
  (allMessages.dropLast.map toChatMessage, store)

/-- History construction of the simple langchain variant of runAgentStreaming
(agent.ts, second variant): the full stored message list, with no slice. -/
def historySimpleVariant (sessionId : String) (store : Store) :
    List ChatMessage × Store :=
  let (allMessages, store) := listMessages sessionId store
  (allMessages.map toChatMessage, store)

/-- History construction of the wrapper variant of runAgentStreaming
(agent.ts, third variant): all stored messages except the last
(`allMessages.slice(0, -1)`), kept as role/content pairs. -/
def historyWrapperVariant (sessionId : String) (store : Store) :
    List (Role × String) × Store :=
  let (allMessages, store) := listMessages sessionId store
  (allMessages.dropLast.map (fun m => (m.role, m.content)), store)

/-- Modelled from the spec: attribute-value escaping in the spec's words —
attribute values get the double quote escaped to the `&quot;` entity, no
other escaping performed.  Stated as a flat-map so the comparison with the
source's replaceAll model is a real equivalence. -/
def specEscapeChars (v : List Char) : List Char :=
  v.flatMap (fun c => if c = '"' then "&quot;".toList else [c])

/-- Modelled from the spec: the rendered fragment in the spec's words — the
open tag with attributes (values escaped by specEscapeChars), then the text
content verbatim with no entity escaping, then the matching closing tag. -/
def specRenderFragment (args : AddNodeArgs) : String :=
  let attrString :=
    match args.attributes with
    | some attrs =>
        String.intercalate " "
          (attrs.map (fun kv => kv.1 ++ "=\"" ++ String.mk (specEscapeChars kv.2.toList) ++ "\""))
    | none => ""
  let openTag :=
    if attrString.length > 0 then "<" ++ args.tag ++ " " ++ attrString ++ ">"
    else "<" ++ args.tag ++ ">"
  args.text.getD "" |> (fun text => openTag ++ text ++ "</" ++ args.tag ++ ">")

/-- Modelled from the spec: counting only opening tags — a scan like
tagScanAux that additionally tracks whether the tag's first inner character
is the slash of a closing tag, and counts a completed tag only when it is
not closing.  State: outside, or inside with (sawInnerChar, isClosing). -/
def openingTagScanAux : Option (Bool × Bool) → List Char → Nat
  | _, [] => 0
  | none, c :: cs =>
      if c = '<' then openingTagScanAux (some (false, false)) cs
      else openingTagScanAux none cs
  | some (hasInner, isClosing), c :: cs =>
      if c = '>' then
        if hasInner then
          if isClosing then openingTagScanAux none cs
          else 1 + openingTagScanAux none cs
        else openingTagScanAux none cs
      else
        if hasInner then openingTagScanAux (some (true, isClosing)) cs
        else openingTagScanAux (some (true, c = '/')) cs

/-- Modelled from the spec: the number of opening tags in a string (the
derivation rule the spec prescribes for the node index). -/
def openingTagCount (s : String) : Nat := openingTagScanAux none s.toList

/-- A concrete agent run used to instantiate the turn theorems: it performs
one add_node tool call (committing a document mutation) and then fails with
the iteration-cap error, as a run that hits the cap does. -/
def capFailingRun (s : String) (args : AddNodeArgs) : AgentRun :=
  fun store =>
    let result := addNodeTool s args store
    (result.2.1, result.2.2.map TurnStep.toolStep, .failure (.iterationCapExceeded 25))

/-- A concrete agent run used to instantiate the turn theorems: it fails
immediately with a reasoning-engine fault. -/
def faultRun (msg : String) : AgentRun :=
  fun store => (store, [], .failure (.fault msg))

theorem findSession_updateSession_self (id : String) (st : SessionState) :
    ∀ l, findSession id (updateSession id st l) = some st := by
  intro l
  induction l with
  | nil => simp [findSession, updateSession]
  | cons kv rest ih =>
      obtain ⟨k, v⟩ := kv
      by_cases hk : k = id
      · simp [findSession, updateSession, hk]
      · simp [findSession, updateSession, hk, ih]

theorem findSession_updateSession_ne (id id2 : String) (st : SessionState)
    (h : id2 ≠ id) :
    ∀ l, findSession id2 (updateSession id st l) = findSession id2 l := by
  intro l
  induction l with
  | nil => simp [findSession, updateSession, Ne.symm h]
  | cons kv rest ih =>
      obtain ⟨k, v⟩ := kv
      by_cases hk : k = id
      · subst hk
        simp [findSession, updateSession, Ne.symm h, ih]
      · by_cases hk2 : k = id2
        · subst hk2
          simp [findSession, updateSession, hk, h]
        · simp [findSession, updateSession, hk, hk2, ih]

theorem getOrCreateSessionState_eq_some {id : String} {store : Store} {st : SessionState}
    (h : findSession id store.sessions = some st) :
    getOrCreateSessionState id store = (st, store) := by
  simp [getOrCreateSessionState, h]

theorem getOrCreateSessionState_eq_none {id : String} {store : Store}
    (h : findSession id store.sessions = none) :
    getOrCreateSessionState id store =
      (freshState id,
       { store with sessions := updateSession id (freshState id) store.sessions }) := by
  simp [getOrCreateSessionState, h]

theorem appendMessage_fst (s : String) (r : Role) (c : String) (store : Store) :
    (appendMessage s r c none none store).1 = ⟨store.nextId, s, r, c, store.now⟩ := by
  cases h : findSession s store.sessions with
  | some st => simp [appendMessage, getOrCreateSessionState_eq_some h]
  | none => simp [appendMessage, getOrCreateSessionState_eq_none h]

theorem appendMessage_messagesOf_self (s : String) (r : Role) (c : String) (store : Store) :
    messagesOf s (appendMessage s r c none none store).2 =
      messagesOf s store ++ [(appendMessage s r c none none store).1] := by
  cases h : findSession s store.sessions with
  | some st =>
      simp [appendMessage, getOrCreateSessionState_eq_some h, messagesOf, h,
        findSession_updateSession_self]
  | none =>
      simp [appendMessage, getOrCreateSessionState_eq_none h, messagesOf, h,
        findSession_updateSession_self, freshState]

theorem appendMessage_frame (s s2 : String) (r : Role) (c : String) (store : Store)
    (h : s2 ≠ s) :
    findSession s2 (appendMessage s r c none none store).2.sessions =
      findSession s2 store.sessions := by
  cases hf : findSession s store.sessions with
  | some st =>
      simp [appendMessage, getOrCreateSessionState_eq_some hf,
        findSession_updateSession_ne _ _ _ h]
  | none =>
      simp [appendMessage, getOrCreateSessionState_eq_none hf,
        findSession_updateSession_ne _ _ _ h]

theorem appendMessage_nextId (s : String) (r : Role) (c : String) (store : Store) :
    (appendMessage s r c none none store).2.nextId = store.nextId + 1 := by
  cases h : findSession s store.sessions with
  | some st => simp [appendMessage, getOrCreateSessionState_eq_some h]
  | none => simp [appendMessage, getOrCreateSessionState_eq_none h]

theorem appendMessage_now (s : String) (r : Role) (c : String) (store : Store) :
    (appendMessage s r c none none store).2.now = store.now + 1 := by
  cases h : findSession s store.sessions with
  | some st => simp [appendMessage, getOrCreateSessionState_eq_some h]
  | none => simp [appendMessage, getOrCreateSessionState_eq_none h]

theorem listMessages_fst (s : String) (store : Store) :
    (listMessages s store).1 = messagesOf s store := by
  cases h : findSession s store.sessions with
  | some st => simp [listMessages, getOrCreateSessionState_eq_some h, messagesOf, h]
  | none => simp [listMessages, getOrCreateSessionState_eq_none h, messagesOf, h, freshState]

theorem appendMessages_messagesOf (s : String) (msgs : List (Role × String)) :
    ∀ store : Store,
      messagesOf s (appendMessages s msgs store) =
        messagesOf s store ++ mkMessages s msgs store.nextId store.now := by
  induction msgs with
  | nil => intro store; simp [appendMessages, mkMessages]
  | cons rc rest ih =>
      intro store
      obtain ⟨r, c⟩ := rc
      have hstep : appendMessages s ((r, c) :: rest) store =
          appendMessages s rest (appendMessage s r c none none store).2 := by
        simp [appendMessages]
      rw [hstep, ih, appendMessage_nextId, appendMessage_now,
        appendMessage_messagesOf_self, appendMessage_fst]
      simp [mkMessages]

theorem mkMessages_map_role_content (s : String) :
    ∀ (msgs : List (Role × String)) (n t : Nat),
      (mkMessages s msgs n t).map (fun m => (m.role, m.content)) = msgs := by
  intro msgs
  induction msgs with
  | nil => intro n t; simp [mkMessages]
  | cons rc rest ih => obtain ⟨r, c⟩ := rc; intro n t; simp [mkMessages, ih]

theorem mkMessages_id_ge (s : String) :
    ∀ (msgs : List (Role × String)) (n t : Nat) (m : Message),
      m ∈ mkMessages s msgs n t → n ≤ m.id := by
  intro msgs
  induction msgs with
  | nil => intro n t m hm; simp [mkMessages] at hm
  | cons rc rest ih =>
      obtain ⟨r, c⟩ := rc
      intro n t m hm
      simp only [mkMessages, List.mem_cons] at hm
      cases hm with
      | inl h => subst h; exact Nat.le_refl n
      | inr h => exact Nat.le_of_succ_le (ih (n + 1) (t + 1) m h)

theorem mkMessages_ids_nodup (s : String) :
    ∀ (msgs : List (Role × String)) (n t : Nat),
      ((mkMessages s msgs n t).map Message.id).Nodup := by
  intro msgs
  induction msgs with
  | nil => intro n t; simp [mkMessages]
  | cons rc rest ih =>
      obtain ⟨r, c⟩ := rc
      intro n t
      simp only [mkMessages, List.map_cons, List.nodup_cons]
      refine ⟨?_, ih (n + 1) (t + 1)⟩
      intro hmem
      obtain ⟨m, hm, hid⟩ := List.mem_map.mp hmem
      have := mkMessages_id_ge s rest (n + 1) (t + 1) m hm
      omega

theorem mkMessages_length (s : String) :
    ∀ (msgs : List (Role × String)) (n t : Nat),
      (mkMessages s msgs n t).length = msgs.length := by
  intro msgs
  induction msgs with
  | nil => intro n t; simp [mkMessages]
  | cons rc rest ih => obtain ⟨r, c⟩ := rc; intro n t; simp [mkMessages, ih]

theorem appendToBody_index (s h : String) (store : Store) :
    (appendToBody s h store).1 = tagCount (bodyOf s store) := by
  cases hf : findSession s store.sessions with
  | some st => simp [appendToBody, getOrCreateSessionState_eq_some hf, bodyOf, hf]
  | none =>
      simp [appendToBody, getOrCreateSessionState_eq_none hf, bodyOf, hf, freshState]

theorem appendToBody_body (s h : String) (store : Store) :
    bodyOf s (appendToBody s h store).2 = bodyOf s store ++ h := by
  cases hf : findSession s store.sessions with
  | some st =>
      simp [appendToBody, getOrCreateSessionState_eq_some hf, bodyOf, hf,
        findSession_updateSession_self]
  | none =>
      simp [appendToBody, getOrCreateSessionState_eq_none hf, bodyOf, hf,
        findSession_updateSession_self, freshState]

theorem appendToBody_messagesOf (s h : String) (store : Store) (sid : String) :
    messagesOf sid (appendToBody s h store).2 = messagesOf sid store := by
  by_cases hs : sid = s
  · subst hs
    cases hf : findSession sid store.sessions with
    | some st =>
        simp [appendToBody, getOrCreateSessionState_eq_some hf, messagesOf, hf,
          findSession_updateSession_self]
    | none =>
        simp [appendToBody, getOrCreateSessionState_eq_none hf, messagesOf, hf,
          findSession_updateSession_self, freshState]
  · cases hf : findSession s store.sessions with
    | some st =>
        simp [appendToBody, getOrCreateSessionState_eq_some hf, messagesOf,
          findSession_updateSession_ne _ _ _ hs]
    | none =>
        simp [appendToBody, getOrCreateSessionState_eq_none hf, messagesOf,
          findSession_updateSession_ne _ _ _ hs]

theorem appendToBody_frame_other (s h : String) (store : Store) (s2 : String)
    (hne : s2 ≠ s) :
    findSession s2 (appendToBody s h store).2.sessions = findSession s2 store.sessions := by
  cases hf : findSession s store.sessions with
  | some st =>
      simp [appendToBody, getOrCreateSessionState_eq_some hf,
        findSession_updateSession_ne _ _ _ hne]
  | none =>
      simp [appendToBody, getOrCreateSessionState_eq_none hf,
        findSession_updateSession_ne _ _ _ hne]

theorem addNodeTool_messagesOf (s : String) (args : AddNodeArgs) (store : Store)
    (sid : String) :
    messagesOf sid (addNodeTool s args store).2.1 = messagesOf sid store := by
  have h := appendToBody_messagesOf s (renderHtml args)
    { store with nextId := store.nextId + 1 } sid
  simpa [addNodeTool, messagesOf] using h

theorem addNodeTool_body (s : String) (args : AddNodeArgs) (store : Store) :
    bodyOf s (addNodeTool s args store).2.1 = bodyOf s store ++ renderHtml args := by
  have h := appendToBody_body s (renderHtml args) { store with nextId := store.nextId + 1 }
  simpa [addNodeTool, bodyOf] using h

theorem historyLanggraphVariant_fst (s : String) (store : Store) :
    (historyLanggraphVariant s store).1 = (messagesOf s store).dropLast.map toChatMessage := by
  have h : (historyLanggraphVariant s store).1 =
      (listMessages s store).1.dropLast.map toChatMessage := rfl
  rw [h, listMessages_fst]

theorem historySimpleVariant_fst (s : String) (store : Store) :
    (historySimpleVariant s store).1 = (messagesOf s store).map toChatMessage := by
  have h : (historySimpleVariant s store).1 =
      (listMessages s store).1.map toChatMessage := rfl
  rw [h, listMessages_fst]

theorem historyWrapperVariant_fst (s : String) (store : Store) :
    (historyWrapperVariant s store).1 =
      (messagesOf s store).dropLast.map (fun m => (m.role, m.content)) := by
  have h : (historyWrapperVariant s store).1 =
      (listMessages s store).1.dropLast.map (fun m => (m.role, m.content)) := rfl
  rw [h, listMessages_fst]

theorem quot_entity_toList : "&quot;".toList = ['&', 'q', 'u', 'o', 't', ';'] := rfl

theorem escapeChars_eq_spec : ∀ cs : List Char, escapeChars cs = specEscapeChars cs := by
  intro cs
  induction cs with
  | nil => simp [escapeChars, specEscapeChars]
  | cons c rest ih =>
      by_cases hc : c = '"'
      · subst hc
        simp [escapeChars, specEscapeChars, quot_entity_toList] at ih ⊢
        simpa [specEscapeChars] using ih
      · simp [escapeChars, specEscapeChars, hc] at ih ⊢
        simpa [specEscapeChars] using ih

theorem capFailingRun_preserves_messages (s : String) (args : AddNodeArgs) :
    RunPreservesMessages (capFailingRun s args) := by
  intro store sid
  have h : (capFailingRun s args store).1 = (addNodeTool s args store).2.1 := rfl
  rw [h, addNodeTool_messagesOf]

theorem capFailingRun_steps (s : String) (args : AddNodeArgs) :
    RunEmitsOnlyToolAndTokenSteps (capFailingRun s args) := by
  intro store x hx
  have h : (capFailingRun s args store).2.1 =
      (addNodeTool s args store).2.2.map TurnStep.toolStep := rfl
  rw [h] at hx
  obtain ⟨st, _, rfl⟩ := List.mem_map.mp hx
  exact Or.inl ⟨st, rfl⟩

theorem faultRun_preserves_messages (msg : String) :
    RunPreservesMessages (faultRun msg) := by
  intro store sid
  rfl

theorem faultRun_steps (msg : String) :
    RunEmitsOnlyToolAndTokenSteps (faultRun msg) := by
  intro store x hx
  simp [faultRun] at hx

theorem runAgentStreaming_of_failure (s input : String) {run : AgentRun}
    {store store1 : Store} {steps : List TurnStep} {err : AgentError}
    (hr : run store = (store1, steps, .failure err)) :
    runAgentStreaming s input run store =
      (.error err, store1,
        TurnStep.invokeAgent :: steps ++ [TurnStep.logError "Agent execution error"]) := by
  unfold runAgentStreaming
  rw [hr]

theorem sendMessage_of_failure (s input : String) {run : AgentRun} {store store1 : Store}
    {steps : List TurnStep} {err : AgentError}
    (hr : run (appendMessage s .USER input none none store).2 =
      (store1, steps, .failure err)) :
    sendMessage s input run store =
      ((appendMessage s .USER input none none store).1, store1,
        (TurnStep.invokeAgent :: steps ++ [TurnStep.logError "Agent execution error"]) ++
          [TurnStep.logError "Agent error"]) := by
  unfold sendMessage
  rw [runAgentStreaming_of_failure s input hr]

theorem addNodeTool_steps_raw (s : String) (args : AddNodeArgs) (store : Store) :
    (addNodeTool s args store).2.2 =
      [AddNodeStep.publishTool (toolEventTopic s)
          ⟨store.nextId, s, "add_node", .raw args, .STARTED, store.now⟩,
       AddNodeStep.publishTool (toolEventTopic s)
          ⟨store.nextId, s, "add_node",
            .htmlPreview ((renderHtml args).take 80), .PROGRESS, store.now + 1⟩,
       AddNodeStep.mutateStore s (renderHtml args),
       AddNodeStep.publishDoc (documentUpdatedTopic s)
          ⟨store.nextId, s, renderHtml args,
            (appendToBody s (renderHtml args) { store with nextId := store.nextId + 1 }).1⟩,
       AddNodeStep.publishTool (toolEventTopic s)
          ⟨store.nextId, s, "add_node",
            .indexResult (appendToBody s (renderHtml args)
              { store with nextId := store.nextId + 1 }).1, .COMPLETED, store.now + 2⟩] := rfl

theorem appendToBody_index_bump (s : String) (args : AddNodeArgs) (store : Store) :
    (appendToBody s (renderHtml args) { store with nextId := store.nextId + 1 }).1 =
      tagCount (bodyOf s store) := by
  rw [appendToBody_index]
  rfl

/-- C1 (amended): appendToBody derives the returned index from the body as it
was before the append, as the number of matches of the tag regex — which
counts every complete tag, closing tags included, not only opening tags; the
empty document yields 0, and the second append of the spec's example yields
2 (the two tags of the first fragment), not 1. -/
theorem C1_index_counts_all_tags (store : Store) (s h : String) :
    (appendToBody s h store).1 = tagCount (bodyOf s store) ∧
    (appendToBody "s" "<a>x</a>" ((ensureSession (some "s") initialStore).2)).1 = 0 ∧
    (appendToBody "s" "<b>y</b>"
        ((appendToBody "s" "<a>x</a>" ((ensureSession (some "s") initialStore).2)).2)).1 =
      2 :=
  ⟨appendToBody_index s h store, by decide, by decide⟩

/-- C1 (counterexample): on the spec's own concrete example the second append
returns 2, not 1 — the regex of appendToBody also counts the closing tag of
the first fragment, while the spec's opening-tag count of that body is 1. -/
theorem C1_counterexample :
    (appendToBody "s" "<b>y</b>"
        ((appendToBody "s" "<a>x</a>" ((ensureSession (some "s") initialStore).2)).2)).1 =
      2 ∧
    openingTagCount "<a>x</a>" = 1 ∧
    (appendToBody "s" "<b>y</b>"
        ((appendToBody "s" "<a>x</a>" ((ensureSession (some "s") initialStore).2)).2)).1 ≠
      1 :=
  ⟨by decide, by decide, by decide⟩

/-- C2: the rendered fragment is the open tag with attributes, each attribute
value with every double quote replaced by the quot entity and nothing else
escaped, then the text verbatim, then the matching closing tag (stated as
equality with the spec-worded renderer); on the concrete input of the claim
it is exactly the expected string. -/
theorem C2_renderHtml_spec (args : AddNodeArgs) :
    renderHtml args = specRenderFragment args ∧
    renderHtml ⟨"div", some "hi", some [("class", "x\"y")]⟩ =
      "<div class=\"x&quot;y\">hi</div>" := by
  constructor
  · unfold renderHtml specRenderFragment
    simp only [escapeAttr, escapeChars_eq_spec]
  · decide

/-- C3: one invocation of the DocumentMutationTool emits exactly STARTED,
then PROGRESS carrying the first 80 characters of the rendered fragment,
then the store mutation, then the document-delta, then COMPLETED — the three
lifecycle events sharing one id — and the returned store already carries the
appended body, so the document-delta is published strictly after the
mutation is applied and strictly between PROGRESS and COMPLETED. -/
theorem C3_addNode_event_sequence (s : String) (args : AddNodeArgs) (store : Store) :
    (addNodeTool s args store).2.2 =
      [AddNodeStep.publishTool (toolEventTopic s)
          ⟨store.nextId, s, "add_node", .raw args, .STARTED, store.now⟩,
       AddNodeStep.publishTool (toolEventTopic s)
          ⟨store.nextId, s, "add_node",
            .htmlPreview ((renderHtml args).take 80), .PROGRESS, store.now + 1⟩,
       AddNodeStep.mutateStore s (renderHtml args),
       AddNodeStep.publishDoc (documentUpdatedTopic s)
          ⟨store.nextId, s, renderHtml args, tagCount (bodyOf s store)⟩,
       AddNodeStep.publishTool (toolEventTopic s)
          ⟨store.nextId, s, "add_node", .indexResult (tagCount (bodyOf s store)),
            .COMPLETED, store.now + 2⟩] ∧
    bodyOf s (addNodeTool s args store).2.1 = bodyOf s store ++ renderHtml args := by
  refine ⟨?_, addNodeTool_body s args store⟩
  rw [addNodeTool_steps_raw, appendToBody_index_bump]

/-- C6 (amended): the langgraph and wrapper variants pass as history all
stored messages except the USER message just appended for the turn, while
the simple langchain variant passes the full message list, so there the
current input is duplicated in history. -/
theorem C6_history_variants (store : Store) (s input : String) :
    (historyLanggraphVariant s (appendMessage s .USER input none none store).2).1 =
      (messagesOf s store).map toChatMessage ∧
    (historyWrapperVariant s (appendMessage s .USER input none none store).2).1 =
      (messagesOf s store).map (fun m => (m.role, m.content)) ∧
    (historySimpleVariant s (appendMessage s .USER input none none store).2).1 =
      (messagesOf s store).map toChatMessage ++
        [toChatMessage (appendMessage s .USER input none none store).1] := by
  have hmsg := appendMessage_messagesOf_self s .USER input store
  refine ⟨?_, ?_, ?_⟩
  · rw [historyLanggraphVariant_fst, hmsg, List.dropLast_concat]
  · rw [historyWrapperVariant_fst, hmsg, List.dropLast_concat]
  · rw [historySimpleVariant_fst, hmsg, List.map_append, List.map_singleton]

/-- C6 (counterexample): in the simple langchain variant the USER message
just appended is itself contained in the history passed to the agent run —
the history is not the message list with the current input removed. -/
theorem C6_counterexample :
    toChatMessage (appendMessage "s" .USER "hello" none none initialStore).1 ∈
      (historySimpleVariant "s"
        (appendMessage "s" .USER "hello" none none initialStore).2).1 ∧
    (historySimpleVariant "s"
        (appendMessage "s" .USER "hello" none none initialStore).2).1 ≠
      (messagesOf "s" initialStore).map toChatMessage :=
  ⟨by decide, by decide⟩

/-- C7: ensureSession with a known id returns that id and leaves the store
untouched, and a second call after the first is equally a no-op — no
messages or document are cleared. -/
theorem C7_ensureSession_idempotent (store : Store) (id : String)
    (h : (findSession id store.sessions).isSome) :
    ensureSession (some id) store = (id, store) ∧
    ensureSession (some id) ((ensureSession (some id) store).2) = (id, store) := by
  constructor
  · simp [ensureSession, h]
  · simp [ensureSession, h]

/-- Witness for C7 at a concrete store that contains the session. -/
theorem C7_witness :
    (findSession "s" ((ensureSession (some "s") initialStore).2).sessions).isSome ∧
    (ensureSession (some "s") ((ensureSession (some "s") initialStore).2) =
        ("s", (ensureSession (some "s") initialStore).2) ∧
      ensureSession (some "s")
          ((ensureSession (some "s") ((ensureSession (some "s") initialStore).2)).2) =
        ("s", (ensureSession (some "s") initialStore).2)) :=
  ⟨by decide,
    C7_ensureSession_idempotent ((ensureSession (some "s") initialStore).2) "s" (by decide)⟩

/-- C8: starting from a session the store has never seen, listMessages
returns the empty sequence while implicitly creating the session, and after
N appendMessage calls it returns exactly those N messages in call order,
each with a distinct id. -/
theorem C8_listMessages_appendMessages (store : Store) (s : String)
    (msgs : List (Role × String)) (h : findSession s store.sessions = none) :
    (listMessages s store).1 = [] ∧
    (findSession s (listMessages s store).2.sessions).isSome ∧
    (listMessages s (appendMessages s msgs store)).1.map (fun m => (m.role, m.content)) =
      msgs ∧
    ((listMessages s (appendMessages s msgs store)).1.map Message.id).Nodup ∧
    (listMessages s (appendMessages s msgs store)).1.length = msgs.length := by
  have hempty : messagesOf s store = [] := by simp [messagesOf, h]
  have hmain := appendMessages_messagesOf s msgs store
  rw [hempty, List.nil_append] at hmain
  refine ⟨?_, ?_, ?_, ?_, ?_⟩
  · rw [listMessages_fst, hempty]
  · simp [listMessages, getOrCreateSessionState_eq_none h, findSession_updateSession_self]
  · rw [listMessages_fst, hmain, mkMessages_map_role_content]
  · rw [listMessages_fst, hmain]
    exact mkMessages_ids_nodup s msgs store.nextId store.now
  · rw [listMessages_fst, hmain, mkMessages_length]

/-- Witness for C8 at the initial store and two appended messages. -/
theorem C8_witness :
    findSession "s" initialStore.sessions = none ∧
    ((listMessages "s" initialStore).1 = [] ∧
      (findSession "s" (listMessages "s" initialStore).2.sessions).isSome ∧
      (listMessages "s"
            (appendMessages "s" [(Role.USER, "hi"), (Role.MODEL, "ok")] initialStore)).1.map
          (fun m => (m.role, m.content)) =
        [(Role.USER, "hi"), (Role.MODEL, "ok")] ∧
      ((listMessages "s"
            (appendMessages "s" [(Role.USER, "hi"), (Role.MODEL, "ok")] initialStore)).1.map
          Message.id).Nodup ∧
      (listMessages "s"
          (appendMessages "s" [(Role.USER, "hi"), (Role.MODEL, "ok")] initialStore)).1.length =
        ([(Role.USER, "hi"), (Role.MODEL, "ok")] : List (Role × String)).length) :=
  ⟨by decide,
    C8_listMessages_appendMessages initialStore "s" [(Role.USER, "hi"), (Role.MODEL, "ok")]
      (by decide)⟩

/-- C9: constructing an agent with a framework name outside the known set
fails at construction time — the factory itself returns the unknown-framework
error, for every choice of the remaining options. -/
theorem C9_unknown_framework (framework p : String) (em mn : Option String)
    (tp mi : Option Nat) (h1 : framework ≠ "langchain") (h2 : framework ≠ "langgraph") :
    createAgent framework p em mn tp mi =
      .error ("Unknown agent framework: " ++ framework) := by
  simp [createAgent, h1, h2]

/-- Witness for C9 at the framework name of a strategy the factory does not
know. -/
theorem C9_witness :
    ("openai" : String) ≠ "langchain" ∧ ("openai" : String) ≠ "langgraph" ∧
    createAgent "openai" "prompt" none none none none =
      .error ("Unknown agent framework: " ++ "openai") :=
  ⟨by decide, by decide,
    C9_unknown_framework "openai" "prompt" none none none none (by decide) (by decide)⟩

/-- C10: appendToBody concatenates the fragment onto the session's previous
body, returns an index that depends only on that previous body, and leaves
the session's message log and every other session's state unchanged. -/
theorem C10_appendToBody_frame (store : Store) (s h : String) :
    bodyOf s (appendToBody s h store).2 = bodyOf s store ++ h ∧
    (appendToBody s h store).1 = tagCount (bodyOf s store) ∧
    (∀ store2 : Store, bodyOf s store2 = bodyOf s store →
        (appendToBody s h store2).1 = (appendToBody s h store).1) ∧
    messagesOf s (appendToBody s h store).2 = messagesOf s store ∧
    (∀ s2, s2 ≠ s →
        findSession s2 (appendToBody s h store).2.sessions =
          findSession s2 store.sessions) := by
  refine ⟨appendToBody_body s h store, appendToBody_index s h store, ?_,
    appendToBody_messagesOf s h store s, ?_⟩
  · intro store2 heq
    rw [appendToBody_index, appendToBody_index, heq]
  · intro s2 hne
    exact appendToBody_frame_other s h store s2 hne

/-- Witness for C10: a two-session store, with the inner implications
instantiated at a store with the same body for the session and at the other
session's id. -/
theorem C10_witness :
    bodyOf "a" (appendToBody "a" "<p>x</p>" ((ensureSession (some "a") initialStore).2)).2 =
      bodyOf "a" ((ensureSession (some "a") initialStore).2) ++ "<p>x</p>" ∧
    (appendToBody "a" "<p>x</p>"
        ((ensureSession (some "b") ((ensureSession (some "a") initialStore).2)).2)).1 =
      (appendToBody "a" "<p>x</p>" ((ensureSession (some "a") initialStore).2)).1 ∧
    findSession "b"
        (appendToBody "a" "<p>x</p>" ((ensureSession (some "a") initialStore).2)).2.sessions =
      findSession "b" ((ensureSession (some "a") initialStore).2).sessions :=
  ⟨(C10_appendToBody_frame ((ensureSession (some "a") initialStore).2) "a" "<p>x</p>").1,
    (C10_appendToBody_frame ((ensureSession (some "a") initialStore).2) "a" "<p>x</p>").2.2.1
      ((ensureSession (some "b") ((ensureSession (some "a") initialStore).2)).2) (by decide),
    (C10_appendToBody_frame ((ensureSession (some "a") initialStore).2) "a" "<p>x</p>").2.2.2.2
      "b" (by decide)⟩

/-- C4: a turn whose agent run fails with the iteration-cap error surfaces
that failure as the turn's reported error, publishes no turn-completion
marker, appends no MODEL message, and keeps the store exactly as the run
left it — every document mutation committed before the cap remains
committed; the factory default for the langchain cap is 25. -/
theorem C4_iteration_cap (store : Store) (s input : String) (run : AgentRun) (cap : Nat)
    (hMsg : RunPreservesMessages run) (hSteps : RunEmitsOnlyToolAndTokenSteps run)
    (hCap : (run store).2.2 = .failure (.iterationCapExceeded cap)) :
    (runAgentStreaming s input run store).1 = .error (.iterationCapExceeded cap) ∧
    (runAgentStreaming s input run store).2.1 = (run store).1 ∧
    (∀ sid, messagesOf sid (runAgentStreaming s input run store).2.1 =
        messagesOf sid store) ∧
    (∀ sid, TurnStep.publishCompletion sid ∉ (runAgentStreaming s input run store).2.2) ∧
    (∀ p em mn tp, ∃ a, createAgent "langchain" p em mn tp none = .ok a ∧
        a.capOf = some 25) := by
  rcases hr : run store with ⟨store1, steps, outcome⟩
  rw [hr] at hCap
  simp only [Prod.snd] at hCap
  subst hCap
  have hrun := runAgentStreaming_of_failure s input hr
  refine ⟨?_, ?_, ?_, ?_, ?_⟩
  · rw [hrun]
  · rw [hrun]
  · intro sid
    rw [hrun]
    have hm := hMsg store sid
    rw [hr] at hm
    simpa using hm
  · intro sid hmem
    rw [hrun] at hmem
    rcases List.mem_cons.mp hmem with h1 | h1
    · simp at h1
    · rcases List.mem_append.mp h1 with h2 | h2
      · have hx := hSteps store (TurnStep.publishCompletion sid)
        rw [hr] at hx
        rcases hx h2 with ⟨st', he⟩ | ⟨sid2, tok, he⟩ <;> simp at he
      · simp at h2
  · intro p em mn tp
    exact ⟨AgentInstance.langchainAgent p (mn.getD (em.getD "gpt-4o-mini")) (tp.getD 0) 25,
      by simp [createAgent], rfl⟩

/-- Witness for C4: a run that commits one document mutation and then hits
the cap — the error is reported, no completion marker appears, no MODEL
message is appended, and the mutated body survives the failed turn. -/
theorem C4_witness :
    (runAgentStreaming "s" "hi" (capFailingRun "s" ⟨"p", some "x", none⟩) initialStore).1 =
      .error (.iterationCapExceeded 25) ∧
    messagesOf "s"
        (runAgentStreaming "s" "hi" (capFailingRun "s" ⟨"p", some "x", none⟩)
          initialStore).2.1 =
      messagesOf "s" initialStore ∧
    TurnStep.publishCompletion "s" ∉
      (runAgentStreaming "s" "hi" (capFailingRun "s" ⟨"p", some "x", none⟩)
        initialStore).2.2 ∧
    bodyOf "s"
        (runAgentStreaming "s" "hi" (capFailingRun "s" ⟨"p", some "x", none⟩)
          initialStore).2.1 =
      "<p>x</p>" := by
  have h := C4_iteration_cap initialStore "s" "hi" (capFailingRun "s" ⟨"p", some "x", none⟩)
    25 (capFailingRun_preserves_messages "s" ⟨"p", some "x", none⟩)
    (capFailingRun_steps "s" ⟨"p", some "x", none⟩) rfl
  exact ⟨h.1, h.2.2.1 "s", h.2.2.2.1 "s", by decide⟩

/-- C5: when the agent run of a turn fails, the USER message recorded at the
start of the turn remains the only addition to the session's log (no MODEL
message is appended), no turn-completion marker is published, the failure is
logged, and the agent is invoked exactly once — never retried. -/
theorem C5_turn_failure (store : Store) (s input : String) (run : AgentRun)
    (err : AgentError) (hMsg : RunPreservesMessages run)
    (hSteps : RunEmitsOnlyToolAndTokenSteps run)
    (hFail : (run (appendMessage s .USER input none none store).2).2.2 = .failure err) :
    (sendMessage s input run store).1.role = .USER ∧
    (sendMessage s input run store).1.content = input ∧
    messagesOf s (sendMessage s input run store).2.1 =
      messagesOf s store ++ [(sendMessage s input run store).1] ∧
    (∀ sid, TurnStep.publishCompletion sid ∉ (sendMessage s input run store).2.2) ∧
    TurnStep.logError "Agent execution error" ∈ (sendMessage s input run store).2.2 ∧
    (sendMessage s input run store).2.2.count TurnStep.invokeAgent = 1 := by
  rcases hr : run (appendMessage s .USER input none none store).2 with
    ⟨store1, steps, outcome⟩
  rw [hr] at hFail
  simp only [Prod.snd] at hFail
  subst hFail
  have hsend := sendMessage_of_failure s input hr
  have hnoinv : TurnStep.invokeAgent ∉ steps := by
    intro hmem
    have hx := hSteps (appendMessage s .USER input none none store).2 TurnStep.invokeAgent
    rw [hr] at hx
    rcases hx hmem with ⟨st', he⟩ | ⟨sid2, tok, he⟩ <;> simp at he
  refine ⟨?_, ?_, ?_, ?_, ?_, ?_⟩
  · rw [hsend, appendMessage_fst]
  · rw [hsend, appendMessage_fst]
  · rw [hsend]
    have hm := hMsg (appendMessage s .USER input none none store).2 s
    rw [hr] at hm
    simp only [Prod.fst] at hm
    rw [hm, appendMessage_messagesOf_self]
  · intro sid hmem
    rw [hsend] at hmem
    rcases List.mem_append.mp hmem with h1 | h1
    · rcases List.mem_cons.mp h1 with h2 | h2
      · simp at h2
      · rcases List.mem_append.mp h2 with h3 | h3
        · have hx := hSteps (appendMessage s .USER input none none store).2
            (TurnStep.publishCompletion sid)
          rw [hr] at hx
          rcases hx h3 with ⟨st', he⟩ | ⟨sid2, tok, he⟩ <;> simp at he
        · simp at h3
    · simp at h1
  · rw [hsend]
    simp
  · rw [hsend]
    simp [List.count_append, List.count_cons, List.count_eq_zero.mpr hnoinv]

/-- Witness for C5: a run that fails immediately with a fault; the turn
records the user message, appends nothing else, publishes no completion
marker, logs the failure, and invokes the agent once. -/
theorem C5_witness :
    (sendMessage "s" "hi" (faultRun "boom") initialStore).1.role = .USER ∧
    (sendMessage "s" "hi" (faultRun "boom") initialStore).1.content = "hi" ∧
    messagesOf "s" (sendMessage "s" "hi" (faultRun "boom") initialStore).2.1 =
      messagesOf "s" initialStore ++ [(sendMessage "s" "hi" (faultRun "boom") initialStore).1] ∧
    TurnStep.publishCompletion "s" ∉
      (sendMessage "s" "hi" (faultRun "boom") initialStore).2.2 ∧
    TurnStep.logError "Agent execution error" ∈
      (sendMessage "s" "hi" (faultRun "boom") initialStore).2.2 ∧
    (sendMessage "s" "hi" (faultRun "boom") initialStore).2.2.count TurnStep.invokeAgent =
      1 := by
  have h := C5_turn_failure initialStore "s" "hi" (faultRun "boom") (.fault "boom")
    (faultRun_preserves_messages "boom") (faultRun_steps "boom") rfl
  exact ⟨h.1, h.2.1, h.2.2.1, h.2.2.2.1 "s", h.2.2.2.2.1, h.2.2.2.2.2⟩

end Spike
